import Mathlib

/-!
Verification of the S3 download extension core (URI parsing/validation,
region-aware object retrieval with redirect retry, destination-folder
resolution, and collision-free file materialization).

The TypeScript sources are embedded shallowly:
pure string manipulation becomes Lean functions on `String`/`List Char`,
the AWS SDK network calls become an explicit `World` of responses,
the filesystem becomes an explicit list of existing paths, and
thrown JavaScript exceptions become `Except` errors.
-/

namespace S3Ext

/-! ### JavaScript string primitives, modelled over `List Char` -/

/-- Model of JavaScript `String.prototype.trim`: whitespace stripped
from both ends. -/
def trimChars (cs : List Char) : List Char :=
  ((cs.dropWhile Char.isWhitespace).reverse.dropWhile Char.isWhitespace).reverse

/-- `jsTrim s` models `s.trim()` in JavaScript. -/
def jsTrim (s : String) : String :=
  ⟨trimChars s.data⟩

/-- Model of `s.endsWith('/')`: the last character is the path separator. -/
def endsWithSlash (s : String) : Bool :=
  s.data.getLast? == some '/'

/-! ### The external URI parser -/

/-- Result type of the external URI parser (the `S3Object` type of the
`amazon-s3-url` dependency). -/
structure S3Object where
  bucket : String
  key : String
  region : Option String
deriving Repr, DecidableEq

/-- Splits a character list at every dot, like `host.split('.')`. -/
def splitOnDot : List Char → List (List Char)
  | [] => [[]]
  | c :: cs =>
    let r := splitOnDot cs
    if c = '.' then [] :: r
    else
      match r with
      | [] => [[c]]
      | h :: t => (c :: h) :: t

/-- Modelled from the spec: the external URI parser (`parseS3Url` from the
`amazon-s3-url` dependency; its code is not part of this repository).
Per the spec it accepts the scheme-prefixed form `s3://bucket/key`, the
virtual-hosted-style form `https://bucket.s3[.region].amazonaws.com/key`
and the path-style form `https://s3[.region].amazonaws.com/bucket/key`,
extracting the region when present in the host and leaving it unset
otherwise, and it throws on any other input (modelled by `Except.error`
carrying the exception's message). A parse that succeeds always
identifies a non-empty bucket. -/
def parseS3Url (u : String) : Except String S3Object :=
  let cs := u.data
  if List.isPrefixOf "s3://".data cs then
    let rest := cs.drop 5
    let bucket := rest.takeWhile (fun c => c ≠ '/')
    let key := (rest.dropWhile (fun c => c ≠ '/')).drop 1
    if bucket.isEmpty then Except.error "Invalid S3 URL: missing bucket"
    else Except.ok { bucket := ⟨bucket⟩, key := ⟨key⟩, region := none }
  else if List.isPrefixOf "https://".data cs then
    let rest := cs.drop 8
    let host := rest.takeWhile (fun c => c ≠ '/')
    let path := (rest.dropWhile (fun c => c ≠ '/')).drop 1
    match (splitOnDot host).map List.asString with
    | [bucket, "s3", "amazonaws", "com"] =>
      if bucket = "" then Except.error "Invalid S3 URL: missing bucket"
      else Except.ok { bucket := bucket, key := ⟨path⟩, region := none }
    | [bucket, "s3", region, "amazonaws", "com"] =>
      if bucket = "" then Except.error "Invalid S3 URL: missing bucket"
      else Except.ok { bucket := bucket, key := ⟨path⟩, region := some region }
    | ["s3", "amazonaws", "com"] =>
      let bucket := path.takeWhile (fun c => c ≠ '/')
      let key := (path.dropWhile (fun c => c ≠ '/')).drop 1
      if bucket.isEmpty then Except.error "Invalid S3 URL: missing bucket"
      else Except.ok { bucket := ⟨bucket⟩, key := ⟨key⟩, region := none }
    | ["s3", region, "amazonaws", "com"] =>
      let bucket := path.takeWhile (fun c => c ≠ '/')
      let key := (path.dropWhile (fun c => c ≠ '/')).drop 1
      if bucket.isEmpty then Except.error "Invalid S3 URL: missing bucket"
      else Except.ok { bucket := ⟨bucket⟩, key := ⟨key⟩, region := some region }
    | _ => Except.error "Invalid S3 URL: unrecognized host"
  else Except.error "Invalid S3 URL format"

/-! ### `parseAndValidateS3Uri` (src/utils/s3.ts, lines 200-259) -/

/-- The locator record returned by `parseAndValidateS3Uri`
(the `ParsedS3Uri` interface of src/utils/s3.ts). -/
structure ParsedS3Uri where
  bucket : String
  key : String
  region : Option String
  isValid : Bool
  errorMessage : Option String
deriving Repr, DecidableEq

/-- Embedding of `parseAndValidateS3Uri` (src/utils/s3.ts). The source wraps
the body in try/catch; the only throwing call is `parseS3Url`, whose failure
is modelled by the `Except.error` branch. -/
def parseAndValidateS3Uri (uri : String) : ParsedS3Uri :=
  let trimmedUri := jsTrim uri
  if trimmedUri = "" then
    { bucket := "", key := "", region := none, isValid := false,
      errorMessage := some "S3 URI cannot be empty" }
  else
    match parseS3Url trimmedUri with
    | Except.error m =>
      { bucket := "", key := "", region := none, isValid := false,
        errorMessage := some ("Failed to parse S3 URI: " ++ m) }
    | Except.ok s3Object =>
      if jsTrim s3Object.key = "" then
        { bucket := s3Object.bucket, key := "", region := s3Object.region,
          isValid := false,
          errorMessage :=
            some "S3 URI must include a file key (not just a bucket or directory)" }
      else if endsWithSlash s3Object.key then
        { bucket := s3Object.bucket, key := s3Object.key, region := s3Object.region,
          isValid := false,
          errorMessage :=
            some "S3 URI must point to a file, not a directory (URI ends with /)" }
      else
        { bucket := s3Object.bucket, key := s3Object.key, region := s3Object.region,
          isValid := true, errorMessage := none }

/-! ### Region extraction from diagnostic messages (src/utils/s3.ts)

Both `detectBucketRegion` and `getS3Object` run the regular expression
`/s3[.-]([a-z0-9-]+)\.amazonaws\.com/` over an error message and use the
captured group only when it differs from the literal `"s3"`. The matcher
below is a direct implementation of that expression: since the character
class of the capture group excludes `'.'`, the greedy capture never
backtracks, so at each start position the group is exactly the maximal
run of class characters, and start positions are tried left to right. -/

/-- Characters matched by the class `[a-z0-9-]`. -/
def isTokenChar (c : Char) : Bool :=
  ('a' ≤ c && c ≤ 'z') || ('0' ≤ c && c ≤ '9') || c == '-'

/-- Tries to match `s3[.-]([a-z0-9-]+)\.amazonaws\.com` at the head of the
list, returning the captured group. -/
def matchEndpointAt : List Char → Option String
  | 's' :: '3' :: sep :: rest =>
    if sep == '.' || sep == '-' then
      let grp := rest.takeWhile isTokenChar
      let rest2 := rest.dropWhile isTokenChar
      if grp.isEmpty then none
      else if List.isPrefixOf ".amazonaws.com".data rest2 then some ⟨grp⟩
      else none
    else none
  | _ => none

/-- Scans start positions left to right, like `message.match(regex)`. -/
def matchEndpointList : List Char → Option String
  | [] => none
  | c :: cs =>
    match matchEndpointAt (c :: cs) with
    | some g => some g
    | none => matchEndpointList cs

/-- The capture group of `message.match(/s3[.-]([a-z0-9-]+)\.amazonaws\.com/)`. -/
def matchEndpoint (msg : String) : Option String :=
  matchEndpointList msg.data

/-- The region actually used by the source: the matched endpoint token,
but only when it differs from the literal `"s3"`
(`endpointMatch && endpointMatch[1] !== 's3'`). -/
def extractRegion (msg : String) : Option String :=
  match matchEndpoint msg with
  | some g => if g = "s3" then none else some g
  | none => none

/-! ### The S3 store as an explicit world of responses -/

/-- An AWS SDK error as observed by the source: `error.name`,
`error.message` and `error.$metadata.httpStatusCode`. -/
structure S3Error where
  name : String
  message : String
  httpStatusCode : Option Nat
deriving Repr, DecidableEq

/-- A `GetObject` response: optional body (the byte stream) plus metadata. -/
structure ObjResponse where
  body : Option (List Nat)
  contentLength : Option Nat
  contentType : Option String
  metadata : List (String × String)
deriving Repr, DecidableEq

/-- The remote store: responses of `GetBucketLocation` (its
`LocationConstraint`, absent for us-east-1 buckets) and of `GetObject`
as a function of the client's region and the bucket/key pair. -/
structure World where
  getBucketLocation : String → Except S3Error (Option String)
  getObject : String → String → String → Except S3Error ObjResponse

/-- A thrown JavaScript value: either an AWS SDK error or a plain
`new Error(message)` (whose `name` is `"Error"` and which carries no
HTTP status). -/
inductive JSErr where
  | s3Err (e : S3Error)
  | plainErr (m : String)
deriving Repr, DecidableEq

/-- `error.name` of a thrown value. -/
def JSErr.name : JSErr → String
  | s3Err e => e.name
  | plainErr _ => "Error"

/-- `error.$metadata?.httpStatusCode` of a thrown value. -/
def JSErr.status : JSErr → Option Nat
  | s3Err e => e.httpStatusCode
  | plainErr _ => none

/-- `error.message` of a thrown value. -/
def JSErr.message : JSErr → String
  | s3Err e => e.message
  | plainErr m => m

/-! ### `detectBucketRegion` (src/utils/s3.ts, lines 35-85) -/

/-- `error?.message || 'Unknown error'` (JavaScript falsiness of `""`). -/
def orUnknown (m : String) : String :=
  if m = "" then "Unknown error" else m

/-- Embedding of `detectBucketRegion` (src/utils/s3.ts). Success yields the
bucket's region; failure models the thrown
`Error('Could not determine bucket region: ...')`. -/
def detectBucketRegion (w : World) (bucketName : String) : Except String String :=
  match w.getBucketLocation bucketName with
  | Except.ok locationConstraint =>
    -- LocationConstraint is undefined for us-east-1 buckets ("" is falsy too)
    let region :=
      match locationConstraint with
      | some s => if s = "" then "us-east-1" else s
      | none => "us-east-1"
    -- EU is a legacy location constraint that maps to eu-west-1
    if region = "EU" then Except.ok "eu-west-1" else Except.ok region
  | Except.error e =>
    if e.name == "PermanentRedirect" || e.httpStatusCode == some 301 then
      match extractRegion e.message with
      | some r => Except.ok r
      | none => Except.error ("Could not determine bucket region: " ++ orUnknown e.message)
    else Except.error ("Could not determine bucket region: " ++ orUnknown e.message)

/-! ### `getS3Object` (src/utils/s3.ts, lines 93-185) -/

/-- The `S3Config` interface of src/utils/s3.ts. -/
structure S3Config where
  region : Option String
  bucket : String
  key : String

/-- The `S3DownloadResult` interface of src/utils/s3.ts. -/
structure S3DownloadResult where
  stream : List Nat
  contentLength : Option Nat
  contentType : Option String
  metadata : List (String × String)
deriving Repr, DecidableEq

/-- `if (!response.Body) throw new Error('No file content received from S3')`,
then the construction of the returned `S3DownloadResult`. -/
def bodyToResult (r : ObjResponse) : Except JSErr S3DownloadResult :=
  match r.body with
  | none => Except.error (JSErr.plainErr "No file content received from S3")
  | some b =>
    Except.ok { stream := b, contentLength := r.contentLength,
                contentType := r.contentType, metadata := r.metadata }

/-- `config.region` under JavaScript truthiness: `""` counts as unset. -/
def regionSetting (cfg : S3Config) : Option String :=
  match cfg.region with
  | some r => if r = "" then none else some r
  | none => none

/-- `process.env.AWS_REGION || 'us-east-1'`: the fallback region used when
auto-detection fails. -/
def envDefaultRegion (awsRegionEnv : Option String) : String :=
  match awsRegionEnv with
  | some r => if r = "" then "us-east-1" else r
  | none => "us-east-1"

/-- The region-resolution prelude of `getS3Object`: the configured region if
set, otherwise `detectBucketRegion`, otherwise the environment/default
fallback. -/
def resolveRegion (w : World) (awsRegionEnv : Option String) (cfg : S3Config) : String :=
  match regionSetting cfg with
  | some r => r
  | none =>
    match detectBucketRegion w cfg.bucket with
    | Except.ok r => r
    | Except.error _ => envDefaultRegion awsRegionEnv

/-- The fetch/catch part of `getS3Object`: issue `GetObject` with a client
bound to `region`; on a permanent-redirect failure whose message yields a
usable region token, retry once with a client bound to that region; any
other failure — and any failure of the retry itself — propagates. The
second component records the region of every `GetObject` attempt, in order. -/
def fetchWithRedirect (w : World) (bucket key region : String) :
    Except JSErr S3DownloadResult × List String :=
  let firstTry : Except JSErr S3DownloadResult :=
    match w.getObject region bucket key with
    | Except.ok resp => bodyToResult resp
    | Except.error e => Except.error (JSErr.s3Err e)
  match firstTry with
  | Except.ok res => (Except.ok res, [region])
  | Except.error err =>
    if err.name == "PermanentRedirect" || err.status == some 301 then
      match extractRegion err.message with
      | some correctRegion =>
        -- Retry with correct region
        match w.getObject correctRegion bucket key with
        | Except.ok resp => (bodyToResult resp, [region, correctRegion])
        | Except.error e2 => (Except.error (JSErr.s3Err e2), [region, correctRegion])
      | none => (Except.error err, [region])
    else (Except.error err, [region])

/-- Embedding of `getS3Object` (src/utils/s3.ts): region resolution followed
by the fetch with its single redirect retry. -/
def getS3Object (w : World) (awsRegionEnv : Option String) (cfg : S3Config) :
    Except JSErr S3DownloadResult × List String :=
  fetchWithRedirect w cfg.bucket cfg.key (resolveRegion w awsRegionEnv cfg)

/-! ### Collision-free paths (src/utils/download.ts, lines 37-60)

The filesystem seen by `fs.existsSync` is modelled as the list of existing
paths; `path.join(folder, name)` for a separator-free `name` is
`folder ++ "/" ++ name`. -/

/-- `path.join(folder, name)` for a plain file name. -/
def pjoin (folder name : String) : String :=
  folder ++ "/" ++ name

/-- The suffix of the list starting at its last `'.'`, if any. -/
def lastDotSuffix : List Char → Option (List Char)
  | [] => none
  | c :: cs =>
    match lastDotSuffix cs with
    | some s => some s
    | none => if c = '.' then some (c :: cs) else none

/-- `path.extname(filename)` for a plain file name: the extension from the
last `'.'`, empty when there is no `'.'` or when the only `'.'` leads the
name. -/
def extname (f : String) : String :=
  match f.data with
  | [] => ""
  | _ :: cs =>
    match lastDotSuffix cs with
    | some s => ⟨s⟩
    | none => ""

/-- `path.basename(filename, ext)` with `ext = path.extname(filename)`:
the name with its extension removed. -/
def dropExt (f : String) : String :=
  ⟨f.data.take (f.data.length - (extname f).data.length)⟩

/-- The candidate path `path.join(folderPath, nameWithoutExt_counter + ext)`
built by the collision loop for a given counter. -/
def mkCandidate (folderPath base ext : String) (k : Nat) : String :=
  pjoin folderPath (base ++ "_" ++ Nat.repr k ++ ext)

/-- The `while (fs.existsSync(uniquePath))` loop of `getUniqueFilePath`:
starting at counter `k`, return the first candidate that does not exist.
The source loop terminates because the filesystem is finite; here the same
fact appears as a fuel argument which, at `fsys.length + 1`, is proved
never to run out. -/
def uniqueLoop (fsys : List String) (folderPath base ext : String) :
    Nat → Nat → String
  | 0, k => mkCandidate folderPath base ext k
  | fuel + 1, k =>
    if mkCandidate folderPath base ext k ∈ fsys then
      uniqueLoop fsys folderPath base ext fuel (k + 1)
    else mkCandidate folderPath base ext k

/-- Embedding of `getUniqueFilePath` (src/utils/download.ts): the plain
`folder/filename` when no file exists there, otherwise the first free
`name_counter.ext` scanning counters 1, 2, ... sequentially. -/
def getUniqueFilePath (fsys : List String) (folderPath filename : String) : String :=
  let filePath := pjoin folderPath filename
  if filePath ∈ fsys then
    uniqueLoop fsys folderPath (dropExt filename) (extname filename)
      (fsys.length + 1) 1
  else filePath

/-! ### `downloadToFile` (src/utils/download.ts, lines 88-149) -/

/-- The filesystem namespace: every existing path (files and folders alike,
as consulted by `fs.existsSync`). -/
structure FS where
  paths : List String
deriving Repr, DecidableEq

/-- Embedding of `ensureDownloadFolderExists` (src/utils/download.ts):
creates the folder when absent. -/
def ensureDownloadFolderExists (fs : FS) (folderPath : String) : FS :=
  if folderPath ∈ fs.paths then fs else { paths := folderPath :: fs.paths }

/-- The `DownloadConfig` interface of src/utils/download.ts; the stream is
a finite byte sequence. -/
structure DownloadConfig where
  stream : List Nat
  fileName : String
  folder : Option String
  overwrite : Bool

/-- The `DownloadResult` interface of src/utils/download.ts. -/
structure DownloadResult where
  fileName : String
  filePath : String
  size : Option Nat
  folder : String
deriving Repr, DecidableEq

/-- JavaScript truthiness of an optional string: `null` and `""` are falsy
(`if (config.folder)`, `if (!configuredFolder)`, `if (!selectedFolder)`). -/
def jsOpt : Option String → Option String
  | some s => if s = "" then none else some s
  | none => none

/-- Embedding of `downloadToFile` (src/utils/download.ts). The settings
lookup `getConfiguredDownloadFolder` and the interactive prompt
`promptForDownloadLocation` are external collaborators, passed as the
values they return (`null` modelled as `none`). The final filesystem is
returned alongside the result; a thrown error leaves it untouched. -/
def downloadToFile (cfg : DownloadConfig) (configuredFolder promptSelection : Option String)
    (fs : FS) : Except String DownloadResult × FS :=
  let folderRes : Except String String :=
    match jsOpt cfg.folder with
    | some f => Except.ok f
    | none =>
      match jsOpt configuredFolder with
      | some f => Except.ok f
      | none =>
        match jsOpt promptSelection with
        | some sel => Except.ok sel
        | none => Except.error "Download cancelled - no folder selected"
  match folderRes with
  | Except.error m => (Except.error m, fs)
  | Except.ok downloadFolder =>
    let fs1 := ensureDownloadFolderExists fs downloadFolder
    let finalPath :=
      if cfg.overwrite then pjoin downloadFolder cfg.fileName
      else getUniqueFilePath fs1.paths downloadFolder cfg.fileName
    let fs2 : FS := { paths := finalPath :: fs1.paths }
    (Except.ok { fileName := cfg.fileName, filePath := finalPath,
                 size := some cfg.stream.length, folder := downloadFolder }, fs2)

/-! ### Destination-folder resolution (src/utils/vscode/settings.ts) -/

/-- The ambient platform state consulted by `getSystemDownloadsFolder`:
`os.platform()`, `os.homedir()`, `process.env.USERPROFILE` and
`process.env.XDG_DOWNLOAD_DIR`. -/
structure Env where
  platform : String
  homeDir : String
  userProfile : Option String
  xdgDownloadDir : Option String

/-- Embedding of `getSystemDownloadsFolder` (src/utils/vscode/settings.ts). -/
def getSystemDownloadsFolder (env : Env) : String :=
  match env.platform with
  | "win32" =>
    match jsOpt env.userProfile with
    | some p => pjoin p "Downloads"
    | none => pjoin env.homeDir "Downloads"
  | "darwin" => pjoin env.homeDir "Downloads"
  | "linux" =>
    match jsOpt env.xdgDownloadDir with
    | some d => d
    | none => pjoin env.homeDir "Downloads"
  | _ => pjoin env.homeDir "Downloads"

/-- `path.isAbsolute` under the posix rules the extension relies on. -/
def isAbsolutePath (p : String) : Bool :=
  p.startsWith "/"

/-- `path.dirname` (posix): trailing separators are ignored, the last
component is dropped, and a path with no remaining separator yields `"/"`
when rooted and `"."` otherwise. -/
def dirname (p : String) : String :=
  match p.data with
  | [] => "."
  | c0 :: rest =>
    let r1 := rest.reverse.dropWhile (fun c => c = '/')
    let r2 := r1.dropWhile (fun c => c ≠ '/')
    match r2 with
    | [] => if c0 = '/' then "/" else "."
    | _ :: r3 =>
      if c0 = '/' ∧ r3 = [] then "//"
      else ⟨c0 :: r3.reverse⟩

/-- Embedding of `getCustomDownloadFolder` (src/utils/vscode/settings.ts):
the configured custom path when it is non-blank, absolute, and its parent
directory exists; the system downloads folder otherwise. -/
def getCustomDownloadFolder (fsys : List String) (env : Env) (customPath : String) :
    String :=
  if customPath = "" ∨ jsTrim customPath = "" then getSystemDownloadsFolder env
  else if ¬ isAbsolutePath customPath then getSystemDownloadsFolder env
  else if dirname customPath ∉ fsys then getSystemDownloadsFolder env
  else customPath

/-! ### Helper lemmas -/

theorem parseS3Url_bucket_ne_empty {u : String} {obj : S3Object}
    (h : parseS3Url u = Except.ok obj) : obj.bucket ≠ "" := by
  have hmk : ∀ l : List Char, l.isEmpty = false → (⟨l⟩ : String) ≠ "" := by
    intro l hl he
    have hd : l = [] := congrArg String.data he
    simp [hd] at hl
  simp only [parseS3Url] at h
  repeat' split at h
  all_goals first
    | exact Except.noConfusion h
    | (injection h with h2; subst h2;
       rename_i hguard
       first
         | exact hmk _ (Bool.not_eq_true _ ▸ (eq_false_of_ne_true hguard))
         | exact hguard)

theorem parseS3Url_empty : parseS3Url "" = Except.error "Invalid S3 URL format" := by
  rfl

theorem trimChars_ne_nil {l : List Char} (h : l.getLast? = some '/') :
    trimChars l ≠ [] := by
  intro hnil
  unfold trimChars at hnil
  rw [List.reverse_eq_nil_iff, List.dropWhile_eq_nil_iff] at hnil
  have hd : l.dropWhile Char.isWhitespace ≠ [] := by
    intro hd0
    rw [List.dropWhile_eq_nil_iff] at hd0
    have hmem : '/' ∈ l := List.mem_of_getLast?_eq_some h
    have := hd0 '/' hmem
    simp [Char.isWhitespace] at this
  have hlast : (l.dropWhile Char.isWhitespace).getLast? = some '/' := by
    obtain ⟨t, ht⟩ := List.dropWhile_suffix (l := l) Char.isWhitespace
    rw [← ht] at h
    rwa [List.getLast?_append_of_ne_nil _ hd] at h
  have hmem2 : '/' ∈ (l.dropWhile Char.isWhitespace).reverse := by
    rw [List.mem_reverse]
    exact List.mem_of_getLast?_eq_some hlast
  have := hnil '/' hmem2
  simp [Char.isWhitespace] at this

theorem jsTrim_ne_empty_of_endsWithSlash {s : String} (h : endsWithSlash s = true) :
    jsTrim s ≠ "" := by
  unfold endsWithSlash at h
  rw [beq_iff_eq] at h
  intro he
  exact trimChars_ne_nil h (congrArg String.data he)

/-! ### Claim theorems: the URI parser -/

/-- C2: for every input string, if the returned locator has `isValid = true`
then its bucket is non-empty, its key is non-empty, and its key does not end
with the path-separator character `'/'`. -/
theorem parse_valid_invariant (uri : String)
    (h : (parseAndValidateS3Uri uri).isValid = true) :
    (parseAndValidateS3Uri uri).bucket ≠ "" ∧
    (parseAndValidateS3Uri uri).key ≠ "" ∧
    endsWithSlash (parseAndValidateS3Uri uri).key = false := by
  by_cases h0 : jsTrim uri = ""
  · simp [parseAndValidateS3Uri, h0] at h
  · cases hp : parseS3Url (jsTrim uri) with
    | error m => simp [parseAndValidateS3Uri, h0, hp] at h
    | ok obj =>
      by_cases hk : jsTrim obj.key = ""
      · simp [parseAndValidateS3Uri, h0, hp, hk] at h
      · by_cases hs : endsWithSlash obj.key
        · simp [parseAndValidateS3Uri, h0, hp, hk, hs] at h
        · refine ⟨?_, ?_, ?_⟩ <;>
            simp only [parseAndValidateS3Uri, h0, hp, hk, hs, if_neg, if_pos,
              Bool.not_eq_true] <;>
            simp [h0, hk, hs]
          · exact parseS3Url_bucket_ne_empty hp
          · intro hke
            exact hk (by rw [hke]; rfl)

/-- Witness for C2 at the concrete input `s3://bucket/key.txt`. -/
theorem parse_valid_invariant_witness :
    (parseAndValidateS3Uri "s3://bucket/key.txt").bucket ≠ "" ∧
    (parseAndValidateS3Uri "s3://bucket/key.txt").key ≠ "" ∧
    endsWithSlash (parseAndValidateS3Uri "s3://bucket/key.txt").key = false :=
  parse_valid_invariant "s3://bucket/key.txt" (by decide)

/-- C4: parse always returns a locator record — valid, or invalid carrying a
descriptive message — and when the underlying URL parser throws, the result
is an invalid locator wrapping the thrown message. -/
theorem parse_never_raises :
    (∀ uri, (parseAndValidateS3Uri uri).isValid = true ∨
      ∃ m, (parseAndValidateS3Uri uri).errorMessage = some m) ∧
    (∀ uri m, jsTrim uri ≠ "" → parseS3Url (jsTrim uri) = Except.error m →
      parseAndValidateS3Uri uri =
        { bucket := "", key := "", region := none, isValid := false,
          errorMessage := some ("Failed to parse S3 URI: " ++ m) }) := by
  constructor
  · intro uri
    by_cases h0 : jsTrim uri = ""
    · right
      exact ⟨"S3 URI cannot be empty", by simp [parseAndValidateS3Uri, h0]⟩
    · cases hp : parseS3Url (jsTrim uri) with
      | error m =>
        right
        exact ⟨"Failed to parse S3 URI: " ++ m, by simp [parseAndValidateS3Uri, h0, hp]⟩
      | ok obj =>
        by_cases hk : jsTrim obj.key = ""
        · right
          exact ⟨"S3 URI must include a file key (not just a bucket or directory)",
            by simp [parseAndValidateS3Uri, h0, hp, hk]⟩
        · by_cases hs : endsWithSlash obj.key
          · right
            exact ⟨"S3 URI must point to a file, not a directory (URI ends with /)",
              by simp [parseAndValidateS3Uri, h0, hp, hk, hs]⟩
          · left; simp [parseAndValidateS3Uri, h0, hp, hk, hs]
  · intro uri m h0 hp
    simp [parseAndValidateS3Uri, h0, hp]

/-- Witness for C4: a raw string the underlying parser rejects comes back as
an invalid locator wrapping the parser's message. -/
theorem parse_never_raises_witness :
    parseAndValidateS3Uri "notaurl" =
      { bucket := "", key := "", region := none, isValid := false,
        errorMessage := some ("Failed to parse S3 URI: " ++ "Invalid S3 URL format") } :=
  parse_never_raises.2 "notaurl" "Invalid S3 URL format" (by decide) (by rfl)

/-- C7: whenever the underlying parse succeeds but the key ends with the
path separator `'/'`, the locator is invalid with the
"must point to a file, not a directory" message; in particular
`parse("s3://bucket/dir/")` is invalid. -/
theorem directory_key_invalid :
    (∀ uri obj, parseS3Url (jsTrim uri) = Except.ok obj →
      endsWithSlash obj.key = true →
      parseAndValidateS3Uri uri =
        { bucket := obj.bucket, key := obj.key, region := obj.region, isValid := false,
          errorMessage :=
            some "S3 URI must point to a file, not a directory (URI ends with /)" }) ∧
    (parseAndValidateS3Uri "s3://bucket/dir/").isValid = false := by
  constructor
  · intro uri obj hp hs
    have h0 : jsTrim uri ≠ "" := by
      intro h0
      rw [h0, parseS3Url_empty] at hp
      exact Except.noConfusion hp
    have hk : jsTrim obj.key ≠ "" := jsTrim_ne_empty_of_endsWithSlash hs
    simp [parseAndValidateS3Uri, h0, hp, hk, hs]
  · decide

/-- Witness for C7 at the concrete input `s3://bucket/dir/`. -/
theorem directory_key_invalid_witness :
    parseAndValidateS3Uri "s3://bucket/dir/" =
      { bucket := "bucket", key := "dir/", region := none, isValid := false,
        errorMessage :=
          some "S3 URI must point to a file, not a directory (URI ends with /)" } :=
  directory_key_invalid.1 "s3://bucket/dir/"
    { bucket := "bucket", key := "dir/", region := none } (by rfl) (by decide)

/-! ### Claim theorems: region discovery and redirect handling -/

theorem fetchWithRedirect_attempts_head (w : World) (bucket key region : String) :
    (fetchWithRedirect w bucket key region).2.head? = some region := by
  simp only [fetchWithRedirect]
  repeat' split
  all_goals rfl

/-- C8: an absent location marker resolves to the default region
`us-east-1`, the legacy marker `"EU"` resolves to `eu-west-1`, and any
other (non-empty) marker is returned unchanged. -/
theorem location_constraint_mapping (w : World) (b : String) :
    (w.getBucketLocation b = Except.ok none →
      detectBucketRegion w b = Except.ok "us-east-1") ∧
    (w.getBucketLocation b = Except.ok (some "EU") →
      detectBucketRegion w b = Except.ok "eu-west-1") ∧
    (∀ s, w.getBucketLocation b = Except.ok (some s) → s ≠ "" → s ≠ "EU" →
      detectBucketRegion w b = Except.ok s) := by
  refine ⟨?_, ?_, ?_⟩
  · intro h; simp [detectBucketRegion, h]
  · intro h; simp [detectBucketRegion, h]
  · intro s h hne hEU; simp [detectBucketRegion, h, hne, hEU]

/-- Witness for C8: a discovery response world exercising the absent-marker
case. -/
theorem location_constraint_mapping_witness :
    detectBucketRegion
      { getBucketLocation := fun _ => Except.ok none,
        getObject := fun _ _ _ =>
          Except.error { name := "NoSuchKey", message := "missing", httpStatusCode := some 404 } }
      "bkt" = Except.ok "us-east-1" :=
  (location_constraint_mapping _ "bkt").1 (by rfl)

/-- C1: a fetch failing with a permanent redirect whose message yields a
region token is retried exactly once against a client bound to that region;
when the retry fails with a redirect again, that second redirect error is
surfaced (no further attempt is made). -/
theorem redirect_retried_once (w : World) (env : Option String) (cfg : S3Config)
    (e1 e2 : S3Error) (r1 : String)
    (h1 : w.getObject (resolveRegion w env cfg) cfg.bucket cfg.key = Except.error e1)
    (hred : e1.name = "PermanentRedirect" ∨ e1.httpStatusCode = some 301)
    (hex : extractRegion e1.message = some r1)
    (h2 : w.getObject r1 cfg.bucket cfg.key = Except.error e2)
    (_hred2 : e2.name = "PermanentRedirect" ∨ e2.httpStatusCode = some 301) :
    getS3Object w env cfg =
      (Except.error (JSErr.s3Err e2), [resolveRegion w env cfg, r1]) := by
  unfold getS3Object fetchWithRedirect
  rw [h1]
  have hcond : ((JSErr.s3Err e1).name == "PermanentRedirect" ||
      (JSErr.s3Err e1).status == some 301) = true := by
    rcases hred with hr | hr <;> simp [JSErr.name, JSErr.status, hr]
  simp only [hcond, if_true, JSErr.message, hex, h2]

/-- Concrete scenario for C1: a first redirect citing `eu-central-1`, whose
retry redirects again; the second error surfaces after exactly two attempts. -/
def c1Err1 : S3Error :=
  { name := "PermanentRedirect",
    message := "please use endpoint s3.eu-central-1.amazonaws.com",
    httpStatusCode := some 301 }

/-- Second redirect error of the C1 scenario. -/
def c1Err2 : S3Error :=
  { name := "PermanentRedirect",
    message := "please use endpoint s3.us-west-2.amazonaws.com",
    httpStatusCode := some 301 }

/-- Store of the C1 scenario: every `GetObject` redirects. -/
def c1World : World :=
  { getBucketLocation := fun _ => Except.ok none,
    getObject := fun region _ _ =>
      if region = "eu-central-1" then Except.error c1Err2 else Except.error c1Err1 }

/-- Witness for C1: in the concrete scenario the fetch is attempted at
`us-east-1`, retried exactly once at `eu-central-1`, and the second
redirect error surfaces. -/
theorem redirect_retried_once_witness :
    getS3Object c1World none { region := some "us-east-1", bucket := "b", key := "k" } =
      (Except.error (JSErr.s3Err c1Err2), ["us-east-1", "eu-central-1"]) := by
  have hr : resolveRegion c1World none
      { region := some "us-east-1", bucket := "b", key := "k" } = "us-east-1" := by rfl
  have h := redirect_retried_once c1World none
    { region := some "us-east-1", bucket := "b", key := "k" } c1Err1 c1Err2 "eu-central-1"
    (by rw [hr]; rfl) (Or.inl rfl) (by decide) (by rfl) (Or.inl rfl)
  rwa [hr] at h

/-- C3: with no region configured, when region discovery fails the fetch is
not aborted: it proceeds at the environment-supplied `AWS_REGION` when that
is set and non-empty, and at the store default `us-east-1` otherwise. -/
theorem region_discovery_fallback (w : World) (env : Option String) (cfg : S3Config)
    (m : String)
    (hnone : regionSetting cfg = none)
    (hfail : detectBucketRegion w cfg.bucket = Except.error m) :
    resolveRegion w env cfg = envDefaultRegion env ∧
    (∀ r, env = some r → r ≠ "" → envDefaultRegion env = r) ∧
    (env = none → envDefaultRegion env = "us-east-1") ∧
    getS3Object w env cfg =
      fetchWithRedirect w cfg.bucket cfg.key (envDefaultRegion env) ∧
    (getS3Object w env cfg).2.head? = some (envDefaultRegion env) := by
  have hres : resolveRegion w env cfg = envDefaultRegion env := by
    simp [resolveRegion, hnone, hfail]
  refine ⟨hres, ?_, ?_, ?_, ?_⟩
  · intro r hr hne; simp [envDefaultRegion, hr, hne]
  · intro hr; simp [envDefaultRegion, hr]
  · rw [getS3Object, hres]
  · rw [getS3Object, hres]; exact fetchWithRedirect_attempts_head w cfg.bucket cfg.key _

/-- Store of the C3 scenario: region discovery is denied outright (a
non-redirect failure with no region token in the message), the fetch itself
succeeds. -/
def c3World : World :=
  { getBucketLocation := fun _ =>
      Except.error { name := "AccessDenied", message := "Access Denied", httpStatusCode := some 403 },
    getObject := fun _ _ _ =>
      Except.ok { body := some [104, 105], contentLength := some 2,
                  contentType := some "text/plain", metadata := [] } }

/-- Witness for C3: discovery fails, yet the fetch proceeds at the
environment-supplied region `ap-south-1`. -/
theorem region_discovery_fallback_witness :
    resolveRegion c3World (some "ap-south-1") { region := none, bucket := "b", key := "k" } =
      envDefaultRegion (some "ap-south-1") ∧
    (getS3Object c3World (some "ap-south-1")
        { region := none, bucket := "b", key := "k" }).2.head? =
      some (envDefaultRegion (some "ap-south-1")) := by
  have h := region_discovery_fallback c3World (some "ap-south-1")
    { region := none, bucket := "b", key := "k" }
    "Could not determine bucket region: Access Denied" (by rfl) (by rfl)
  exact ⟨h.1, h.2.2.2.2⟩

/-- C10: a region token matched out of an error message is used only when it
differs from the literal `"s3"`: whenever the regular expression's capture
is `"s3"`, the extraction yields no region, region discovery falls through
to its failure path, and the fetch's redirect handler rethrows the original
error after a single attempt. -/
theorem global_endpoint_token_unused (msg : String)
    (hm : matchEndpoint msg = some "s3") :
    extractRegion msg = none ∧
    (∀ w b e, w.getBucketLocation b = Except.error e → e.message = msg →
      detectBucketRegion w b =
        Except.error ("Could not determine bucket region: " ++ orUnknown msg)) ∧
    (∀ w env cfg e1,
      w.getObject (resolveRegion w env cfg) cfg.bucket cfg.key = Except.error e1 →
      e1.message = msg →
      getS3Object w env cfg =
        (Except.error (JSErr.s3Err e1), [resolveRegion w env cfg])) := by
  have hex : extractRegion msg = none := by
    simp [extractRegion, hm]
  refine ⟨hex, ?_, ?_⟩
  · intro w b e herr hmsg
    unfold detectBucketRegion
    rw [herr]
    by_cases hc : (e.name == "PermanentRedirect" || e.httpStatusCode == some 301) = true
    · simp only [hc, if_true, hmsg, hex]
    · simp [hc, hmsg]
  · intro w env cfg e1 h1 hmsg
    unfold getS3Object fetchWithRedirect
    rw [h1]
    by_cases hc : ((JSErr.s3Err e1).name == "PermanentRedirect" ||
        (JSErr.s3Err e1).status == some 301) = true
    · simp only [hc, if_true, JSErr.message, hmsg, hex]
    · simp [hc]

/-- Store of the C10 scenario: discovery is rejected with a redirect whose
message cites only the global endpoint `s3.s3.amazonaws.com`, so the
matched token is the literal `"s3"`. -/
def c10World : World :=
  { getBucketLocation := fun _ =>
      Except.error { name := "PermanentRedirect", message := "s3.s3.amazonaws.com",
                     httpStatusCode := some 301 },
    getObject := fun _ _ _ =>
      Except.ok { body := some [], contentLength := none, contentType := none,
                  metadata := [] } }

/-- Witness for C10: with capture `"s3"` the extraction yields nothing and
region discovery fails over to its error path. -/
theorem global_endpoint_token_unused_witness :
    extractRegion "s3.s3.amazonaws.com" = none ∧
    detectBucketRegion c10World "bkt" =
      Except.error ("Could not determine bucket region: " ++
        orUnknown "s3.s3.amazonaws.com") := by
  have h := global_endpoint_token_unused "s3.s3.amazonaws.com" (by decide)
  exact ⟨h.1, h.2.1 c10World "bkt" _ (by rfl) (by rfl)⟩

/-! ### Claim theorems: destination-folder resolution and cancellation -/

/-- C6: with the custom strategy, an empty/blank custom path, a relative
custom path, or a custom path whose parent directory does not exist all
resolve to the system downloads folder; resolution is total and never
fails the operation. -/
theorem custom_folder_fallback (fsys : List String) (env : Env) (customPath : String)
    (h : jsTrim customPath = "" ∨ isAbsolutePath customPath = false ∨
      dirname customPath ∉ fsys) :
    getCustomDownloadFolder fsys env customPath = getSystemDownloadsFolder env := by
  unfold getCustomDownloadFolder
  by_cases h0 : customPath = "" ∨ jsTrim customPath = ""
  · rw [if_pos h0]
  · rw [if_neg h0]
    by_cases h1 : isAbsolutePath customPath
    · rw [if_neg (by simp [h1])]
      by_cases h2 : dirname customPath ∉ fsys
      · rw [if_pos h2]
      · rcases h with h | h | h
        · exact absurd (Or.inr h) h0
        · exact absurd h1 (by simp [h])
        · exact absurd h h2
    · rw [if_pos (by simpa using h1)]

/-- Platform state of the C6 witness. -/
def c6Env : Env :=
  { platform := "linux", homeDir := "/home/u", userProfile := none,
    xdgDownloadDir := none }

/-- Witness for C6: an empty custom path resolves to the downloads folder. -/
theorem custom_folder_fallback_witness :
    getCustomDownloadFolder [] c6Env "" = getSystemDownloadsFolder c6Env :=
  custom_folder_fallback [] c6Env "" (Or.inl (by rfl))

/-- C9: when no folder is given, the settings require a prompt, and the user
cancels it, the download aborts with the cancellation error and the
filesystem is left exactly as it was — no folder is created and no file is
written. -/
theorem cancelled_prompt_no_writes (cfg : DownloadConfig)
    (configured prompt : Option String) (fs : FS)
    (h1 : jsOpt cfg.folder = none) (h2 : jsOpt configured = none)
    (h3 : jsOpt prompt = none) :
    downloadToFile cfg configured prompt fs =
      (Except.error "Download cancelled - no folder selected", fs) := by
  simp [downloadToFile, h1, h2, h3]

/-- Download request of the C9 witness. -/
def c9Cfg : DownloadConfig :=
  { stream := [1, 2, 3], fileName := "a.txt", folder := none, overwrite := false }

/-- Witness for C9: a concrete cancelled download leaves the filesystem
untouched. -/
theorem cancelled_prompt_no_writes_witness :
    downloadToFile c9Cfg none none { paths := ["/home/u/Downloads"] } =
      (Except.error "Download cancelled - no folder selected",
        { paths := ["/home/u/Downloads"] }) :=
  cancelled_prompt_no_writes c9Cfg none none { paths := ["/home/u/Downloads"] }
    (by rfl) (by rfl) (by rfl)

/-! ### Injectivity of `Nat.repr`, needed for the collision scan

The counter is printed in decimal by `Nat.repr`; distinct counters produce
distinct candidate names, which is what makes the scan terminate within
`fsys.length + 1` steps. -/

/-- Value of a decimal digit character. -/
def digitVal (c : Char) : Nat :=
  c.toNat - '0'.toNat

/-- Reads a decimal digit string back into the number it denotes. -/
def evalDigits (l : List Char) : Nat :=
  l.foldl (fun a c => a * 10 + digitVal c) 0

theorem digitVal_digitChar : ∀ d : Nat, d < 10 → digitVal (Nat.digitChar d) = d := by
  decide

theorem toDigitsCore_append (fuel : Nat) :
    ∀ (n : Nat) (ds : List Char),
      Nat.toDigitsCore 10 fuel n ds = Nat.toDigitsCore 10 fuel n [] ++ ds := by
  induction fuel with
  | zero => intro n ds; simp [Nat.toDigitsCore]
  | succ fuel ih =>
    intro n ds
    simp only [Nat.toDigitsCore]
    by_cases h : n / 10 = 0
    · simp [h]
    · simp only [h, if_false]
      rw [ih (n / 10) (Nat.digitChar (n % 10) :: ds),
        ih (n / 10) [Nat.digitChar (n % 10)]]
      simp

theorem evalDigits_append_singleton (l : List Char) (c : Char) :
    evalDigits (l ++ [c]) = evalDigits l * 10 + digitVal c := by
  simp [evalDigits, List.foldl_append]

theorem evalDigits_toDigitsCore (fuel : Nat) :
    ∀ n : Nat, n < fuel → evalDigits (Nat.toDigitsCore 10 fuel n []) = n := by
  induction fuel with
  | zero => intro n h; omega
  | succ fuel ih =>
    intro n h
    simp only [Nat.toDigitsCore]
    by_cases h0 : n / 10 = 0
    · have hn : n < 10 := (Nat.div_eq_zero_iff (by norm_num)).mp h0
      simp only [h0, if_true]
      show evalDigits [Nat.digitChar (n % 10)] = n
      have : evalDigits [Nat.digitChar (n % 10)] = digitVal (Nat.digitChar (n % 10)) := by
        simp [evalDigits]
      rw [this, digitVal_digitChar (n % 10) (Nat.mod_lt n (by norm_num)),
        Nat.mod_eq_of_lt hn]
    · simp only [h0, if_false]
      rw [toDigitsCore_append, evalDigits_append_singleton]
      have hlt : n / 10 < fuel := by omega
      rw [ih (n / 10) hlt, digitVal_digitChar (n % 10) (Nat.mod_lt n (by norm_num))]
      omega

theorem evalDigits_repr (n : Nat) : evalDigits (Nat.repr n).data = n :=
  evalDigits_toDigitsCore (n + 1) n (Nat.lt_succ_self n)

theorem natRepr_injective {m n : Nat} (h : Nat.repr m = Nat.repr n) : m = n := by
  have h2 := congrArg (fun s => evalDigits (String.data s)) h
  simpa [evalDigits_repr] using h2

theorem mkCandidate_injective (folderPath base ext : String) {i j : Nat}
    (h : mkCandidate folderPath base ext i = mkCandidate folderPath base ext j) :
    i = j := by
  have hd := congrArg String.data h
  simp only [mkCandidate, pjoin, String.data_append, List.append_assoc] at hd
  have h1 := List.append_cancel_left hd
  have h2 := List.append_cancel_left h1
  have h3 := List.append_cancel_left h2
  have h4 := List.append_cancel_left h3
  have h5 := List.append_cancel_right h4
  exact natRepr_injective (String.ext h5)

theorem exists_free_candidate (fsys : List String) (folderPath base ext : String) :
    ∃ m, 1 ≤ m ∧ m ≤ fsys.length + 1 ∧ mkCandidate folderPath base ext m ∉ fsys := by
  by_contra hc
  push_neg at hc
  have hmap : ∀ a ∈ Finset.range (fsys.length + 1),
      mkCandidate folderPath base ext (a + 1) ∈ fsys.toFinset := by
    intro a ha
    rw [List.mem_toFinset]
    exact hc (a + 1) (by omega) (by have := Finset.mem_range.mp ha; omega)
  have hinj : Set.InjOn (fun a => mkCandidate folderPath base ext (a + 1))
      (Finset.range (fsys.length + 1)) := by
    intro a _ b _ hab
    have := mkCandidate_injective folderPath base ext hab
    omega
  have hcard := Finset.card_le_card_of_injOn _ hmap hinj
  rw [Finset.card_range] at hcard
  have hlen := List.toFinset_card_le fsys
  omega

theorem uniqueLoop_eq_least (fsys : List String) (folderPath base ext : String) :
    ∀ fuel k m, k ≤ m →
      mkCandidate folderPath base ext m ∉ fsys →
      (∀ i, k ≤ i → i < m → mkCandidate folderPath base ext i ∈ fsys) →
      m < k + fuel →
      uniqueLoop fsys folderPath base ext fuel k = mkCandidate folderPath base ext m := by
  intro fuel
  induction fuel with
  | zero => intro k m h1 _ _ h4; omega
  | succ fuel ih =>
    intro k m h1 h2 h3 h4
    simp only [uniqueLoop]
    by_cases hk : mkCandidate folderPath base ext k ∈ fsys
    · rw [if_pos hk]
      have hkm : k ≠ m := by
        rintro rfl
        exact h2 hk
      exact ih (k + 1) m (by omega) h2 (fun i hi1 hi2 => h3 i (by omega) hi2) (by omega)
    · rw [if_neg hk]
      have hmk : m = k := by
        by_contra hne
        exact hk (h3 k le_rfl (by omega))
      rw [hmk]

/-! ### Claim theorem: collision-free naming -/

/-- C5: with overwrite unset the materializer picks `folder/fileName` when
free, and otherwise the candidate `name_k.ext` with the lowest available
suffix `k ≥ 1` (every smaller suffix being taken), scanning sequentially;
on the spec's concrete vectors this gives `a_1.txt` and `a_2.txt`, and
`downloadToFile` with `overwrite` unset routes through exactly this scan. -/
theorem unique_path_lowest_suffix :
    (∀ fsys folderPath filename,
      (pjoin folderPath filename ∉ fsys →
        getUniqueFilePath fsys folderPath filename = pjoin folderPath filename) ∧
      (pjoin folderPath filename ∈ fsys →
        ∃ m, 1 ≤ m ∧
          mkCandidate folderPath (dropExt filename) (extname filename) m ∉ fsys ∧
          (∀ i, 1 ≤ i → i < m →
            mkCandidate folderPath (dropExt filename) (extname filename) i ∈ fsys) ∧
          getUniqueFilePath fsys folderPath filename =
            mkCandidate folderPath (dropExt filename) (extname filename) m)) ∧
    getUniqueFilePath ["d/a.txt"] "d" "a.txt" = "d/a_1.txt" ∧
    getUniqueFilePath ["d/a.txt", "d/a_1.txt"] "d" "a.txt" = "d/a_2.txt" ∧
    (∀ stream fileName folderPath configured prompt fs, folderPath ≠ "" →
      (downloadToFile ⟨stream, fileName, some folderPath, false⟩
          configured prompt fs).1 =
        Except.ok
          ⟨fileName,
           getUniqueFilePath (ensureDownloadFolderExists fs folderPath).paths
             folderPath fileName,
           some stream.length, folderPath⟩) := by
  refine ⟨?_, by decide, by decide, ?_⟩
  · intro fsys folderPath filename
    constructor
    · intro hfree
      unfold getUniqueFilePath
      rw [if_neg hfree]
    · intro hmem
      have hex : ∃ m, 1 ≤ m ∧
          mkCandidate folderPath (dropExt filename) (extname filename) m ∉ fsys := by
        obtain ⟨m, hm1, _, hm3⟩ :=
          exists_free_candidate fsys folderPath (dropExt filename) (extname filename)
        exact ⟨m, hm1, hm3⟩
      refine ⟨Nat.find hex, (Nat.find_spec hex).1, (Nat.find_spec hex).2, ?_, ?_⟩
      · intro i hi1 hi2
        by_contra hnot
        exact absurd (Nat.find_min' hex ⟨hi1, hnot⟩) (by omega)
      · unfold getUniqueFilePath
        rw [if_pos hmem]
        obtain ⟨m, hm1, hm2, hm3⟩ :=
          exists_free_candidate fsys folderPath (dropExt filename) (extname filename)
        have hfind : Nat.find hex ≤ m := Nat.find_min' hex ⟨hm1, hm3⟩
        refine uniqueLoop_eq_least fsys folderPath (dropExt filename) (extname filename)
          (fsys.length + 1) 1 (Nat.find hex) (Nat.find_spec hex).1
          (Nat.find_spec hex).2 ?_ (by omega)
        intro i hi1 hi2
        by_contra hnot
        exact absurd (Nat.find_min' hex ⟨hi1, hnot⟩) (by omega)
  · intro stream fileName folderPath configured prompt fs hne
    simp [downloadToFile, jsOpt, hne]

/-- Witness for C5: with an empty folder the plain path is chosen. -/
theorem unique_path_lowest_suffix_witness :
    getUniqueFilePath [] "d" "a.txt" = pjoin "d" "a.txt" :=
  (unique_path_lowest_suffix.1 [] "d" "a.txt").1 (by decide)

end S3Ext
